import Mathlib

/-!
Verification of the tarfs archive indexer and filesystem surface.

This file embeds the core of the tarfs repository in Lean:

* `src/src/tarindexer.rs` — the single-pass archive indexer
  (`TarIndexer::build_index_for`, `get_or_create_path_entry`,
  `TarEntry::set_to_index_entry`, `TarEntry::attrs`,
  `parse_timespec_from_pax_extension`);
* `src/src/tarindex.rs` — the resulting index (`IndexEntry`,
  `TarIndex::read`, `TarIndex::insert`, `lookup_key`, `ino_to_arena_index`);
* `src/src/arena.rs` — the arena (a `Vec` with `insert(index, entry)`);
* `src/src/tarfs.rs` — the FUSE surface (`lookup`, `getattr`, `readdir`,
  the local `attrs` function, `emtpy_attr`, `ttl_max`).

Conventions of the embedding:

* Rust `u64`/`u32`/`u16` values are `Nat`s; where the code can overflow or
  wrap, the wrap is written out explicitly (`% 2^64` etc.).  Rust `i64`/`i32`
  are `Int`s; Rust's truncating division `/` on signed integers is `Int.tdiv`.
* Paths (`PathBuf`) are lists of components (`List String`); `"./a"` is
  `[".", "a"]`.  `Path::parent` drops the last component and `Path::file_name`
  returns the last component when it is a normal one.  Ordering of `PathBuf`
  keys in a `BTreeMap` is lexicographic on components, which for the relative
  paths stored by the indexer coincides with lexicographic `String` order.
* The archive file is a total byte function `Nat → Nat`; `read_exact` at
  position `p` for `n` bytes yields bytes `p, p+1, …, p+n-1`.
* Rust panics (`expect`, `Vec::insert` out of bounds, slice range panics) are
  modelled as explicit failure values, never silently dropped.
* The unbounded `while` loop of the PAX fraction scaling is modelled with
  explicit fuel; `none` means the loop has not terminated within the fuel,
  and a result that is `none` for every fuel is a non-terminating loop.
-/

set_option maxRecDepth 4096

/-- Timespec from the `time` crate: seconds (i64) and nanoseconds (i32). -/
structure TimespecM where
  sec : Int
  nsec : Int
deriving DecidableEq, Repr

/-- fuse::FileType — the variants the tarfs code produces. -/
inductive FileTypeM where
  | regularFile
  | directory
  | symlink
deriving DecidableEq, Repr

/-- tar::EntryType — the variants the tarfs code distinguishes; `other`
stands for every remaining tar entry type (fifo, block, char, …). -/
inductive EntryTypeM where
  | regular
  | directory
  | symlink
  | link
  | other
deriving DecidableEq, Repr

/-- fuse::FileAttr as used by tarfs. -/
structure FileAttrM where
  ino : Nat
  size : Nat
  blocks : Nat
  atime : TimespecM
  mtime : TimespecM
  ctime : TimespecM
  crtime : TimespecM
  kind : FileTypeM
  perm : Nat
  nlink : Nat
  uid : Nat
  gid : Nat
  rdev : Nat
  flags : Nat
deriving DecidableEq, Repr

/-- utils.rs `default_fuse_file_attr`: the all-zero attribute record. -/
def default_fuse_file_attr : FileAttrM :=
  { ino := 0, size := 0, blocks := 0
    atime := ⟨0, 0⟩, mtime := ⟨0, 0⟩, ctime := ⟨0, 0⟩, crtime := ⟨0, 0⟩
    kind := .regularFile, perm := 0, nlink := 0, uid := 0, gid := 0
    rdev := 0, flags := 0 }

/-! ## PAX timestamp parsing (tarindexer.rs `parse_timespec_from_pax_extension`) -/

/-- Rust `str::split('.')` on the character list of the value. -/
def splitOnChar (sep : Char) (cs : List Char) : List (List Char) :=
  match cs with
  | [] => [[]]
  | c :: rest =>
    let r := splitOnChar sep rest
    if c = sep then [] :: r
    else
      match r with
      | [] => [[c]]
      | g :: gs => (c :: g) :: gs

/-- Digit run accumulation for integer parsing. -/
def parse_digits_go : List Char → Nat → Option Nat
  | [], acc => some acc
  | c :: rest, acc =>
    if c.isDigit then parse_digits_go rest (acc * 10 + (c.toNat - 48)) else none

/-- Parse a non-empty digit run; `none` on a non-digit or an empty run
(mirroring Rust's `str::parse::<i64>` failure). -/
def parse_digits : List Char → Option Nat
  | [] => none
  | cs => parse_digits_go cs 0

/-- Rust `str::parse::<i64>`: optional sign, a non-empty digit run, and a
64-bit signed range check. -/
def parse_i64 (cs : List Char) : Option Int :=
  match cs with
  | '+' :: rest =>
    (parse_digits rest).bind fun n =>
      if (n : Int) ≤ 9223372036854775807 then some (n : Int) else none
  | '-' :: rest =>
    (parse_digits rest).bind fun n =>
      if (n : Int) ≤ 9223372036854775808 then some (-(n : Int)) else none
  | rest =>
    (parse_digits rest).bind fun n =>
      if (n : Int) ≤ 9223372036854775807 then some (n : Int) else none

/-- Rust `as i32` applied to an `i64` value: wrap into `[-2^31, 2^31)`. -/
def i64_as_i32 (n : Int) : Int :=
  (n + 2147483648).emod 4294967296 - 2147483648

/-- The left-scaling loop `while ns / 10_000_000 == 0 { ns = ns * 10 }` of
`parse_timespec_from_pax_extension`, with explicit fuel.  `none` means the
loop has not finished within `fuel` iterations.  The division is Rust's
truncating signed division. -/
def scale_nanos : Nat → Int → Option Int
  | 0, _ => none
  | fuel + 1, ns =>
    if ns.tdiv 10000000 = 0 then scale_nanos fuel (ns * 10) else some ns

/-- The `[Ok(s), Ok(ns)]` arm of `parse_timespec_from_pax_extension`:
cast the fraction to i32, left-scale it, and build the Timespec. -/
def resolve_fraction (fuel : Nat) (s ns : Int) : Option (Option TimespecM) :=
  match scale_nanos fuel (i64_as_i32 ns) with
  | none => none
  | some ns2 => some (some ⟨s, ns2⟩)

/-- tarindexer.rs `parse_timespec_from_pax_extension`, applied to the value
string of a present key.  The outer `Option` is termination (`none` = the
scaling loop did not finish); the inner `Option` is the Rust return value
(`none` = the key is treated as absent because a part failed to parse). -/
def parse_timespec_value (value : String) (fuel : Nat) : Option (Option TimespecM) :=
  match (splitOnChar '.' value.data).map parse_i64 with
  | [some s, some ns] => resolve_fraction fuel s ns
  | [some s] => some (some ⟨s, 0⟩)
  | _ => some none

theorem parse_timespec_value_two (v : String) (fuel : Nat) (s ns : Int)
    (h : (splitOnChar '.' v.data).map parse_i64 = [some s, some ns]) :
    parse_timespec_value v fuel = resolve_fraction fuel s ns := by
  unfold parse_timespec_value
  rw [h]

theorem scale_nanos_zero (fuel : Nat) : scale_nanos fuel 0 = none := by
  induction fuel with
  | zero => rfl
  | succ f ih => simpa [scale_nanos] using ih

theorem scale_nanos_done (fuel : Nat) (ns : Int) (h : ¬ ns.tdiv 10000000 = 0) :
    scale_nanos (fuel + 1) ns = some ns := by
  simp [scale_nanos, h]

theorem pax_value_27993590 (fuel : Nat) :
    parse_timespec_value "1700000000.27993590" (fuel + 1) =
      some (some ⟨1700000000, 27993590⟩) := by
  rw [parse_timespec_value_two _ _ 1700000000 27993590 (by decide)]
  unfold resolve_fraction
  rw [show i64_as_i32 27993590 = 27993590 from by decide]
  rw [scale_nanos_done fuel 27993590 (by decide)]

/-- Claim C7: the spec claims the PAX value "1700000000.27993590" resolves to
nanos = 279_935_900.  The code's left-scaling loop stops as soon as
`ns / 10_000_000 ≠ 0`, i.e. once `ns` has reached eight digits, so the value
resolves to nanos = 27_993_590 instead — one decimal place short of the nine
digits a nanosecond field needs.  (The repository's own test asserts
`mtime_nsec` equality against the source tree, which this violates for any
fraction of nine significant digits.) -/
theorem c7_pax_fraction_not_left_scaled_to_nanos :
    (∀ fuel, parse_timespec_value "1700000000.27993590" (fuel + 1) =
      some (some ⟨1700000000, 27993590⟩))
    ∧ (∀ fuel, parse_timespec_value "1700000000.27993590" fuel ≠
      some (some ⟨1700000000, 279935900⟩)) := by
  constructor
  · exact pax_value_27993590
  · intro fuel
    match fuel with
    | 0 =>
      rw [parse_timespec_value_two _ _ 1700000000 27993590 (by decide)]
      unfold resolve_fraction
      rw [show i64_as_i32 27993590 = 27993590 from by decide]
      simp [scale_nanos]
    | f + 1 =>
      rw [pax_value_27993590 f]
      decide

/-- Claim C8: the spec claims the scaling loop terminates for every fraction
value including 0.  For a parsed fraction of 0 the loop body multiplies
`0 * 10 = 0` and the guard `0 / 10_000_000 == 0` stays true, so the loop
never exits: parsing the PAX value "1.0" diverges for every fuel. -/
theorem c8_pax_scale_loop_diverges_on_zero_fraction (fuel : Nat) :
    parse_timespec_value "1.0" fuel = none := by
  rw [parse_timespec_value_two _ _ 1 0 (by decide)]
  unfold resolve_fraction
  rw [show i64_as_i32 0 = 0 from by decide]
  rw [scale_nanos_zero]

/-! ## Paths

Tar entry paths are relative (`"./a"`, `"./dir/nested"`); the embedding
stores them as component lists.  `keyLt` is the `BTreeMap<PathBuf, _>` key
order: `PathBuf` compares component-wise, and for the relative normal
components stored here the component order is byte-wise `String` order. -/

def charListLt : List Char → List Char → Bool
  | [], [] => false
  | [], _ :: _ => true
  | _ :: _, [] => false
  | a :: as, b :: bs =>
    if a.toNat < b.toNat then true
    else if a.toNat = b.toNat then charListLt as bs
    else false

def strLt (a b : String) : Bool := charListLt a.data b.data

def keyLt : List String → List String → Bool
  | [], [] => false
  | [], _ :: _ => true
  | _ :: _, [] => false
  | x :: xs, y :: ys =>
    if strLt x y then true
    else if x = y then keyLt xs ys
    else false

/-- Rust `Path::file_name()`: the last component when it is a normal one;
`None` for an empty path or a path ending in `.` or `..`. -/
def fileName (p : List String) : Option String :=
  match p.getLast? with
  | none => none
  | some s => if s = "." ∨ s = ".." then none else some s

/-- Rust `Path::parent()`: drop the final component; `None` only for the
empty path (and the root path, which does not occur among tar entries). -/
def parentPath (p : List String) : Option (List String) :=
  match p with
  | [] => none
  | _ => some p.dropLast

/-- Byte length of a string (what `OsStr::len` returns for its UTF-8 text). -/
def str_bytes (s : String) : Nat := s.data.foldl (fun n c => n + c.utf8Size) 0

/-- `OsStr::len` of a `PathBuf` built from the given components: component
byte lengths joined by `/` separators. -/
def os_str_len : List String → Nat
  | [] => 0
  | [s] => str_bytes s
  | s :: rest => str_bytes s + 1 + os_str_len rest

/-! ## IndexEntry and the tar entry record (tarindex.rs / tarindexer.rs) -/

/-- tarindex.rs `TarEntryPointer`: one content slice inside the archive. -/
structure TarEntryPointer where
  raw_file_offset : Nat
  filesize : Nat
deriving DecidableEq, Repr

/-- tarindex.rs `IndexEntry`. -/
structure IndexEntry where
  id : Nat
  parent_ino : Option Nat
  path : List String
  name : String
  link_name : Option (List String)
  link_count : Nat
  link_target_ino : Option Nat
  attrs : FileAttrM
  file_offsets : List TarEntryPointer
  children : List Nat
deriving DecidableEq, Repr

/-- `impl Default for IndexEntry`. -/
def IndexEntry.default : IndexEntry :=
  { id := 0, parent_ino := none, path := [], name := "", link_name := none
    link_count := 0, link_target_ino := none, attrs := default_fuse_file_attr
    file_offsets := [], children := [] }

/-- `IndexEntry::ino()`: the hard-link target ino when set, else the id. -/
def IndexEntry.ino (e : IndexEntry) : Nat :=
  match e.link_target_ino with
  | some lt_ino => lt_ino
  | none => e.id

/-- tarindexer.rs `TarEntry`: one parsed tar record (times already resolved
from the PAX extensions / header, see `parse_timespec_value`). -/
structure TarEntryM where
  header_offset : Nat
  raw_file_offset : Nat
  path : List String
  link_name : Option (List String)
  filesize : Nat
  mode : Nat
  uid : Nat
  gid : Nat
  mtime : TimespecM
  atime : TimespecM
  ctime : TimespecM
  ftype : EntryTypeM
deriving DecidableEq, Repr

/-- tarindexer.rs `TarEntry::attrs`: build the fuse attribute record.  Note
`EntryType::Link` maps to `FileType::RegularFile`; a hard link's size is the
byte length of its `link_name` (the `Link → 0` arm is only reached when
`link_name` is absent); directories get size 4096 and nlink 2. -/
def tar_entry_attrs (t : TarEntryM) (ino : Nat) : FileAttrM :=
  let kind : FileTypeM :=
    match t.ftype with
    | .regular => .regularFile
    | .directory => .directory
    | .symlink => .symlink
    | .link => .regularFile
    | .other => .regularFile
  let size : Nat :=
    match t.link_name with
    | some ln => os_str_len ln
    | none =>
      match t.ftype with
      | .link => 0
      | .directory => 4096
      | _ => t.filesize
  let nlink : Nat :=
    match t.ftype with
    | .directory => 2
    | _ => 1
  { ino := ino, size := size, blocks := 0
    atime := t.atime, mtime := t.mtime, ctime := t.ctime, crtime := t.ctime
    kind := kind, perm := t.mode % 65536, nlink := nlink
    uid := t.uid % 4294967296, gid := t.gid % 4294967296, rdev := 0, flags := 0 }

/-- tarindexer.rs `TarEntry::set_to_index_entry`: overwrite the work node's
fields from the tar record; `file_offsets` is a push (append), and
`link_count`, `link_target_ino`, `children` are left untouched. -/
def set_to_index_entry (t : TarEntryM) (name : String) (ino : Nat)
    (parent : Option Nat) (e : IndexEntry) : IndexEntry :=
  { e with
    id := ino
    parent_ino := parent
    attrs := tar_entry_attrs t ino
    path := t.path
    name := name
    link_name := t.link_name
    file_offsets := e.file_offsets ++ [⟨t.raw_file_offset, t.filesize⟩] }

/-! ## The indexer (tarindexer.rs `TarIndexer::build_index_for`) -/

/-- tarindexer.rs `Permissions` (root directory ownership options). -/
structure PermissionsM where
  mode : Nat
  uid : Nat
  gid : Nat
deriving DecidableEq, Repr

/-- The path map `BTreeMap<PathBuf, Ptr<IndexEntry>>`, kept sorted by key so
that folding over it models `BTreeMap` iteration order. -/
abbrev PathMap := List (List String × IndexEntry)

def pm_get (m : PathMap) (k : List String) : Option IndexEntry :=
  match m with
  | [] => none
  | (k2, v) :: rest => if k2 = k then some v else pm_get rest k

def pm_insert_sorted (m : PathMap) (k : List String) (v : IndexEntry) : PathMap :=
  match m with
  | [] => [(k, v)]
  | (k2, v2) :: rest =>
    if keyLt k k2 then (k, v) :: (k2, v2) :: rest
    else (k2, v2) :: pm_insert_sorted rest k v

def pm_update (m : PathMap) (k : List String) (f : IndexEntry → IndexEntry) : PathMap :=
  m.map fun kv => if kv.1 = k then (kv.1, f kv.2) else kv

/-- Indexer state: the monotone id counter and the path map. -/
structure IndexerSt where
  next_id : Nat
  path_map : PathMap
deriving DecidableEq, Repr

/-- tarindexer.rs `get_or_create_path_entry`: return the existing work
node's id, or insert a fresh default node carrying the next id. -/
def get_or_create_path_entry (st : IndexerSt) (path : List String) :
    IndexerSt × Nat :=
  match pm_get st.path_map path with
  | some e => (st, e.id)
  | none =>
    let id := st.next_id
    let e := { IndexEntry.default with id := id }
    ({ next_id := id + 1, path_map := pm_insert_sorted st.path_map path e }, id)

/-- The index errors `build_index_for` can return (tarindexer.rs builds a
`TarFsError::IndexError` in these cases).  The `Rc::try_unwrap` failure at
commit time is unreachable (each work node holds exactly one strong
reference when the entry loop has finished) and is not modelled. -/
inductive IndexErrorM where
  | no_link_name (path : List String)
deriving DecidableEq, Repr

/-- Failure modes of the indexer: a Rust panic (`expect`, `Vec::insert`
index out of bounds) or a returned `IndexError`. -/
inductive FailureM where
  | panicked (msg : String)
  | index_error (e : IndexErrorM)
deriving DecidableEq, Repr

/-- One iteration of the entry loop of `build_index_for`: derive the name
(`file_name().expect`), find the parent (`parent().expect`), get-or-create
parent and entry work nodes, fill the entry, push it onto the parent's
children, and resolve a hard link by snapshotting the target work node's
attrs after bumping its nlink.  (A hard link whose `link_name` equals its
own path would die of a `RefCell` double-borrow in Rust; no claim exercises
that case and it is not modelled.) -/
def process_tar_record (st : IndexerSt) (t : TarEntryM) :
    Except FailureM IndexerSt :=
  match fileName t.path with
  | none => .error (.panicked "entry without name")
  | some name =>
    match parentPath t.path with
    | none => .error (.panicked "a tar entry without parent component!")
    | some parent_path =>
      let s1 := get_or_create_path_entry st parent_path
      let parent_ino := s1.2
      let s2 := get_or_create_path_entry s1.1 t.path
      let ino := s2.2
      let pm3 := pm_update s2.1.path_map t.path (set_to_index_entry t name ino (some parent_ino))
      let pm4 := pm_update pm3 parent_path (fun p => { p with children := p.children ++ [ino] })
      let st4 : IndexerSt := { next_id := s2.1.next_id, path_map := pm4 }
      if t.ftype = .link then
        match t.link_name with
        | none => .error (.index_error (.no_link_name t.path))
        | some ln =>
          let s5 := get_or_create_path_entry st4 ln
          let bump := fun (e : IndexEntry) =>
            { e with link_count := e.link_count + 1, attrs := { e.attrs with nlink := e.attrs.nlink + 1 } }
          let pm6 := pm_update s5.1.path_map ln bump
          let target_attrs :=
            match pm_get pm6 ln with
            | some e => e.attrs
            | none => default_fuse_file_attr
          let setlink := fun (e : IndexEntry) =>
            { e with link_target_ino := some target_attrs.ino, attrs := target_attrs }
          let pm7 := pm_update pm6 t.path setlink
          .ok { next_id := s5.1.next_id, path_map := pm7 }
      else
        .ok st4

def run_records : IndexerSt → List TarEntryM → Except FailureM IndexerSt
  | st, [] => .ok st
  | st, t :: rest =>
    match process_tar_record st t with
    | .error f => .error f
    | .ok st2 => run_records st2 rest

/-- tarindexer.rs `create_root_entry`: the synthesized root work node (path
`"./"`, name `"."`, directory, ownership from the mount options, times from
the wall clock passed in as `now`), filled through `set_to_index_entry` with
id 1 and no parent. -/
def create_root_entry (perms : PermissionsM) (now : TimespecM) : IndexEntry :=
  set_to_index_entry
    { header_offset := 0, raw_file_offset := 0, path := ["."]
      link_name := none, filesize := 0
      mode := perms.mode, uid := perms.uid, gid := perms.gid
      mtime := now, atime := now, ctime := now
      ftype := .directory }
    "." 1 none IndexEntry.default

/-! ## Committing into the index (tarindex.rs `TarIndex::insert`, arena.rs) -/

/-- tarindex.rs `ino_to_arena_index`. -/
def ino_to_arena_index (ino : Nat) : Nat := ino - 1

/-- arena.rs `Arena::insert`, which is `Vec::insert(index, entry)`:
shifts the suffix right; panics (`none`) when `index > len`. -/
def vec_insert_at (idx : Nat) (a : IndexEntry) (l : List IndexEntry) :
    Option (List IndexEntry) :=
  if idx ≤ l.length then some (l.insertIdx idx a) else none

/-- Overwriting insert into an association list (`BTreeMap::insert`). -/
def map_insert {κ ν : Type} [DecidableEq κ] (m : List (κ × ν)) (k : κ) (v : ν) :
    List (κ × ν) :=
  match m with
  | [] => [(k, v)]
  | (k2, v2) :: rest =>
    if k2 = k then (k, v) :: rest else (k2, v2) :: map_insert rest k v

/-- tarindex.rs `TarIndex`: arena, child map (key `lookup_key(parent, name)`)
and ino map. -/
structure TarIndexM where
  arena : List IndexEntry
  child_map : List ((Nat × String) × Nat)
  ino_map : List (Nat × Nat)
deriving DecidableEq, Repr

/-- tarindex.rs `TarIndex::insert`: place the entry at arena slot
`id - 1` (a panicking `Vec::insert`), register it in the child map under
`lookup_key(parent_ino, file_name)` when it has a parent — with an early
return (skipping the ino-map insert) when the path has no file name — and
register `ino → arena index`. -/
def tar_index_insert (ix : TarIndexM) (e : IndexEntry) : Option TarIndexM :=
  match vec_insert_at (ino_to_arena_index e.id) e ix.arena with
  | none => none
  | some arena =>
    let ino := e.id
    match e.parent_ino with
    | some parent_id =>
      match fileName e.path with
      | none =>
        some { arena := arena, child_map := ix.child_map, ino_map := ix.ino_map }
      | some n =>
        some { arena := arena
               child_map := map_insert ix.child_map (parent_id, n) ino
               ino_map := map_insert ix.ino_map ino (ino_to_arena_index e.id) }
    | none =>
      some { arena := arena, child_map := ix.child_map
             ino_map := map_insert ix.ino_map ino (ino_to_arena_index e.id) }

/-- The commit loop of `build_index_for`: pull the work nodes out of the
path map in `BTreeMap` (path-sorted) key order and insert each into the
index; `none` when an arena insert panics. -/
def commit_entries : TarIndexM → List (List String × IndexEntry) → Option TarIndexM
  | ix, [] => some ix
  | ix, kv :: rest =>
    match tar_index_insert ix kv.2 with
    | none => none
    | some ix2 => commit_entries ix2 rest

/-- tarindexer.rs `TarIndexer::build_index_for`: synthesize the root work
node, run the entry loop over the archive stream, then commit the path map
into the index. -/
def build_index_for (perms : PermissionsM) (now : TimespecM)
    (arch : List TarEntryM) : Except FailureM TarIndexM :=
  let root := create_root_entry perms now
  let st0 : IndexerSt := { next_id := 2, path_map := [(["."], root)] }
  match run_records st0 arch with
  | .error f => .error f
  | .ok st =>
    match commit_entries ⟨[], [], []⟩ st.path_map with
    | none => .error (.panicked "insertion index should be less than or equal to len")
    | some ix => .ok ix

/-! ### Result projections used by the concrete evaluations -/

def result_ok : Except FailureM TarIndexM → Option TarIndexM
  | .ok ix => some ix
  | .error _ => none

def result_failure : Except FailureM TarIndexM → Option FailureM
  | .ok _ => none
  | .error f => some f

def result_arena_ids (r : Except FailureM TarIndexM) : Option (List Nat) :=
  (result_ok r).map fun ix => ix.arena.map (·.id)

def result_link_info (r : Except FailureM TarIndexM) :
    Option (List (Nat × Option Nat × Nat)) :=
  (result_ok r).map fun ix =>
    ix.arena.map fun e => (e.id, e.link_target_ino, e.ino)

def result_tree_info (r : Except FailureM TarIndexM) :
    Option (List (Nat × List Nat × List TarEntryPointer)) :=
  (result_ok r).map fun ix =>
    ix.arena.map fun e => (e.id, e.children, e.file_offsets)

/-! ## Concrete archives used to evaluate the indexer -/

/-- Root permissions as a caller would derive them from a mountpoint
(mode 0o755, uid/gid 1000). -/
def perms0 : PermissionsM := ⟨493, 1000, 1000⟩

/-- The wall-clock instant passed to the root entry synthesis. -/
def now0 : TimespecM := ⟨1700000001, 0⟩

/-- Regular file record `./b` (mode 0o644). -/
def rec_b : TarEntryM :=
  { header_offset := 0, raw_file_offset := 512, path := [".", "b"], link_name := none,
    filesize := 3, mode := 420, uid := 1000, gid := 1000,
    mtime := ⟨1700000000, 0⟩, atime := ⟨1700000000, 0⟩, ctime := ⟨1700000000, 0⟩,
    ftype := .regular }

/-- Regular file record `./a`. -/
def rec_a : TarEntryM := { rec_b with path := [".", "a"], raw_file_offset := 1536 }

/-- A second tar record for the path `./a` (a duplicate entry). -/
def rec_a_dup : TarEntryM := { rec_a with raw_file_offset := 2048, filesize := 5 }

/-- Hard-link record `./h` whose target `./z` appears later in the stream. -/
def rec_h : TarEntryM :=
  { rec_b with
      path := [".", "h"], ftype := .link, link_name := some [".", "z"],
      filesize := 0, raw_file_offset := 1024 }

/-- Regular file record `./z` (the target of `rec_h`). -/
def rec_z : TarEntryM := { rec_b with path := [".", "z"], raw_file_offset := 2048 }

/-- Hard-link record `./h` pointing at `./a` (used with the target first). -/
def rec_h2 : TarEntryM := { rec_h with link_name := some [".", "a"] }

/-- Hard-link record with no `link_name`. -/
def rec_badlink : TarEntryM :=
  { rec_b with path := [".", "l"], ftype := .link, link_name := none }

/-- Record `./dir/file` whose parent directory `./dir` never gets a record
of its own (an orphan parent path). -/
def rec_orphan_child : TarEntryM :=
  { rec_b with path := [".", "dir", "file"], raw_file_offset := 512 }

/-- Claim C2: the spec claims arena commit places every entry at slot
`id - 1` for every archive regardless of stream order and never fails.  The
commit loop iterates the path map in path-sorted key order while ids are
assigned in first-mention order; `Vec::insert(id - 1, entry)` panics as soon
as those orders differ.  For the stream `./b` then `./a` (ids: root 1,
`./b` 2, `./a` 3; path order root, `./a`, `./b`) the commit inserts `./a`
at slot 2 into an arena of length 1 and panics.  The same records in sorted
stream order commit fine, with arena slot `k` holding id `k + 1`. -/
theorem c2_arena_commit_panics_on_out_of_order_stream :
    result_failure (build_index_for perms0 now0 [rec_b, rec_a]) =
      some (FailureM.panicked "insertion index should be less than or equal to len")
    ∧ result_arena_ids (build_index_for perms0 now0 [rec_a, rec_b]) = some [1, 2, 3] := by
  decide

/-- Claim C3: the spec claims a hard link resolves to the target's id
whether the target's record appears before or after the link record.  When
the link record comes first, the target work node is freshly created with
all-zero attrs, and the snapshot taken from it gives the link
`link_target_ino = 0` and `ino() = 0` instead of the target's id 3 (first
conjunct: arena rows are `(id, link_target_ino, ino())`, the link is id 2,
its target `./z` is id 3).  Only when the target's record precedes the link
does the link get the target's id (second conjunct: link id 3 carries
`link_target_ino = some 2` for target `./a` with id 2). -/
theorem c3_forward_hard_link_resolves_to_ino_zero :
    result_link_info (build_index_for perms0 now0 [rec_h, rec_z]) =
      some [(1, none, 1), (2, some 0, 0), (3, none, 3)]
    ∧ result_link_info (build_index_for perms0 now0 [rec_a, rec_h2]) =
      some [(1, none, 1), (2, none, 2), (3, some 2, 2)] := by
  decide

/-- Claim C4: the spec claims `build_index_for` fails with an IndexError on
a duplicate path entry and on an orphan path.  In the code the duplicate
check and orphan check do not exist: a second record for `./a` is silently
absorbed (the parent's children list gains the id twice and the entry's
`file_offsets` gains a second element — first conjunct, rows are
`(id, children, file_offsets)`); an orphan parent `./dir` is silently
committed as a default work node, unreachable from the root (second
conjunct); only a hard link without `link_name` actually returns an
IndexError (third conjunct); a clean archive indexes fine (fourth
conjunct). -/
theorem c4_duplicate_and_orphan_are_absorbed_silently :
    result_tree_info (build_index_for perms0 now0 [rec_a, rec_a_dup]) =
      some [(1, [2, 2], [⟨0, 0⟩]), (2, [], [⟨1536, 3⟩, ⟨2048, 5⟩])]
    ∧ result_tree_info (build_index_for perms0 now0 [rec_orphan_child]) =
      some [(1, [], [⟨0, 0⟩]), (2, [3], []), (3, [], [⟨512, 3⟩])]
    ∧ result_failure (build_index_for perms0 now0 [rec_badlink]) =
      some (.index_error (.no_link_name [".", "l"]))
    ∧ result_failure (build_index_for perms0 now0 [rec_a, rec_b, rec_h2]) = none := by
  decide

/-! ## Content reads (tarindex.rs `TarIndex::read`)

All quantities are `u64`; `offset_in_file`, `file_end` and
`left = file_end - offset_in_file` are computed with wrapping `u64`
arithmetic (release-profile semantics; a debug build panics at the same
spot on underflow, so in either profile the subtraction is not the claimed
total computation when `offset > filesize`). -/

def U64 : Nat := 18446744073709551616

/-- The bytes a successful `read_exact` of `len` bytes at position `pos`
returns. -/
def read_bytes (archive : Nat → Nat) (pos len : Nat) : List Nat :=
  (List.range len).map fun i => archive (pos + i)

/-- The body of `TarIndex::read` once `file_offsets[0]` has been fetched. -/
def tar_index_read_part (archive : Nat → Nat) (part1 : TarEntryPointer)
    (offset size : Nat) : List Nat :=
  let offset_in_file := (part1.raw_file_offset + offset) % U64
  let file_end := (part1.raw_file_offset + part1.filesize) % U64
  let left := (file_end + U64 - offset_in_file) % U64
  if left < size then
    read_bytes archive offset_in_file left ++ List.replicate (size - left) 0
  else
    read_bytes archive offset_in_file size

/-- tarindex.rs `TarIndex::read`: `&entry.file_offsets[0]` panics (`none`)
on an empty vector; otherwise seek to `base + offset` and read. -/
def tar_index_read (archive : Nat → Nat) (e : IndexEntry) (offset size : Nat) :
    Option (List Nat) :=
  match e.file_offsets with
  | [] => none
  | part1 :: _ => some (tar_index_read_part archive part1 offset size)

/-- The intermediate `left = file_end - offset_in_file` value of
`TarIndex::read`, for reasoning about the (absence of) underflow. -/
def read_left (e : IndexEntry) (offset : Nat) : Option Nat :=
  match e.file_offsets with
  | [] => none
  | part1 :: _ =>
    some (((part1.raw_file_offset + part1.filesize) % U64 + U64
      - (part1.raw_file_offset + offset) % U64) % U64)

theorem tar_index_read_cons (archive : Nat → Nat) (e : IndexEntry)
    (part1 : TarEntryPointer) (rest : List TarEntryPointer)
    (hoff : e.file_offsets = part1 :: rest) (offset size : Nat) :
    tar_index_read archive e offset size =
      some (tar_index_read_part archive part1 offset size) := by
  unfold tar_index_read
  rw [hoff]

theorem tar_index_read_part_spec (archive : Nat → Nat) (base fsz offset size : Nat)
    (hle : offset ≤ fsz) (hbound : base + fsz < U64) :
    tar_index_read_part archive ⟨base, fsz⟩ offset size =
      if fsz - offset < size then
        read_bytes archive (base + offset) (fsz - offset)
          ++ List.replicate (size - (fsz - offset)) 0
      else
        read_bytes archive (base + offset) size := by
  have hU : U64 = 18446744073709551616 := rfl
  have hof : (base + offset) % U64 = base + offset := Nat.mod_eq_of_lt (by omega)
  have hfe : (base + fsz) % U64 = base + fsz := Nat.mod_eq_of_lt (by omega)
  have harith : base + fsz + U64 - (base + offset) = U64 + (fsz - offset) := by omega
  have hmod : (U64 + (fsz - offset)) % U64 = fsz - offset := by
    rw [Nat.add_mod_left]
    exact Nat.mod_eq_of_lt (by omega)
  simp only [tar_index_read_part]
  rw [hof, hfe, harith, hmod]

/-- Claim C1: for a regular file entry whose first (and for regular files
only) content slice is `(base, fsz)` and a request with `offset ≤ fsz`,
`read` returns exactly `size` archive bytes at `base + offset` when
`size ≤ fsz - offset`, and the remaining `fsz - offset` archive bytes padded
with `size - (fsz - offset)` zero bytes otherwise; reading the whole content
returns it unchanged, and a zero-size read returns an empty buffer.  The
bound `base + fsz < 2^64` says the content lies inside a `u64`-addressable
archive file, which is what seeking to it requires. -/
theorem c1_read_returns_requested_range (archive : Nat → Nat) (e : IndexEntry)
    (base fsz offset size : Nat) (rest : List TarEntryPointer) (B : List Nat)
    (hoff : e.file_offsets = ⟨base, fsz⟩ :: rest)
    (hle : offset ≤ fsz) (hbound : base + fsz < U64)
    (hB : read_bytes archive base fsz = B) (hlen : B.length = fsz) :
    (size ≤ fsz - offset →
      tar_index_read archive e offset size = some (read_bytes archive (base + offset) size))
    ∧ (fsz - offset < size →
      tar_index_read archive e offset size =
        some (read_bytes archive (base + offset) (fsz - offset)
          ++ List.replicate (size - (fsz - offset)) 0))
    ∧ tar_index_read archive e 0 B.length = some B
    ∧ tar_index_read archive e 0 0 = some [] := by
  refine ⟨?_, ?_, ?_, ?_⟩
  · intro hsz
    rw [tar_index_read_cons archive e ⟨base, fsz⟩ rest hoff,
      tar_index_read_part_spec archive base fsz offset size hle hbound,
      if_neg (by omega)]
  · intro hsz
    rw [tar_index_read_cons archive e ⟨base, fsz⟩ rest hoff,
      tar_index_read_part_spec archive base fsz offset size hle hbound,
      if_pos hsz]
  · rw [tar_index_read_cons archive e ⟨base, fsz⟩ rest hoff,
      tar_index_read_part_spec archive base fsz 0 B.length (Nat.zero_le fsz) hbound,
      hlen, if_neg (by omega)]
    rw [Nat.add_zero, hB]
  · rw [tar_index_read_cons archive e ⟨base, fsz⟩ rest hoff,
      tar_index_read_part_spec archive base fsz 0 0 (Nat.zero_le fsz) hbound,
      if_neg (by omega)]
    rfl

/-- Entry with content slice at archive offset 100, 4 bytes long. -/
def w_entry : IndexEntry := { IndexEntry.default with file_offsets := [⟨100, 4⟩] }

theorem c1_read_witness :
    tar_index_read (fun i => i) w_entry 1 2 = some (read_bytes (fun i => i) 101 2)
    ∧ tar_index_read (fun i => i) w_entry 0 4 = some [100, 101, 102, 103]
    ∧ tar_index_read (fun i => i) w_entry 0 0 = some [] := by
  have h := c1_read_returns_requested_range (fun i => i) w_entry 100 4 1 2 []
    [100, 101, 102, 103] rfl (by decide) (by decide) (by decide) (by decide)
  exact ⟨h.1 (by decide), h.2.2.1, h.2.2.2⟩

/-- Entry with an empty content slice (`fsz = 0`) at archive offset 0. -/
def e_zero : IndexEntry := { IndexEntry.default with file_offsets := [⟨0, 0⟩] }

/-- Claim C9 counterexample: the claim says a read at `offset ≥ fsz` returns
an empty buffer.  At `offset = fsz` (here both 0) with `size = 1` the code
computes `left = 0 < size`, reads zero archive bytes and pads with
`size - 0` zeros, returning one zero byte — not an empty buffer. -/
theorem c9_read_at_eof_counterexample :
    tar_index_read (fun _ => 7) e_zero 0 1 = some [0]
    ∧ tar_index_read (fun _ => 7) e_zero 0 1 ≠ some [] := by
  decide

/-- Claim C9 amended: for `offset ≤ fsz` the computation of
`left = fsz - offset` involves no `u64` underflow (it equals the exact
difference), and at `offset = fsz` the read returns `size` zero bytes
(zero archive bytes followed by the full zero padding) rather than an empty
buffer.  For `offset > fsz` the subtraction wraps around `2^64` (release
profile) or panics (debug profile), so no totality statement is made
there. -/
theorem read_left_cons (e : IndexEntry) (base fsz : Nat)
    (rest : List TarEntryPointer) (hoff : e.file_offsets = ⟨base, fsz⟩ :: rest)
    (offset : Nat) :
    read_left e offset =
      some (((base + fsz) % U64 + U64 - (base + offset) % U64) % U64) := by
  unfold read_left
  rw [hoff]

theorem c9_read_at_eof_amended (archive : Nat → Nat) (e : IndexEntry)
    (base fsz offset size : Nat) (rest : List TarEntryPointer)
    (hoff : e.file_offsets = ⟨base, fsz⟩ :: rest) (hbound : base + fsz < U64) :
    (offset ≤ fsz → read_left e offset = some (fsz - offset))
    ∧ (offset = fsz →
      tar_index_read archive e offset size = some (List.replicate size 0)) := by
  constructor
  · intro hle
    have hU : U64 = 18446744073709551616 := rfl
    have hof : (base + offset) % U64 = base + offset := Nat.mod_eq_of_lt (by omega)
    have hfe : (base + fsz) % U64 = base + fsz := Nat.mod_eq_of_lt (by omega)
    have harith : base + fsz + U64 - (base + offset) = U64 + (fsz - offset) := by omega
    have hmod : (U64 + (fsz - offset)) % U64 = fsz - offset := by
      rw [Nat.add_mod_left]
      exact Nat.mod_eq_of_lt (by omega)
    rw [read_left_cons e base fsz rest hoff offset]
    rw [hof, hfe, harith, hmod]
  · intro heq
    have hle2 : offset ≤ fsz := le_of_eq heq
    rw [tar_index_read_cons archive e ⟨base, fsz⟩ rest hoff,
      tar_index_read_part_spec archive base fsz offset size hle2 hbound,
      heq, Nat.sub_self]
    match size with
    | 0 =>
      rw [if_neg (by omega)]
      rfl
    | sz + 1 =>
      rw [if_pos (by omega)]
      simp [read_bytes]

theorem c9_read_at_eof_witness :
    read_left e_zero 0 = some 0
    ∧ tar_index_read (fun _ => 7) e_zero 0 2 = some [0, 0] := by
  have h := c9_read_at_eof_amended (fun _ => 7) e_zero 0 0 0 2 [] rfl (by decide)
  exact ⟨h.1 (le_refl 0), h.2 rfl⟩

/-! ## The FUSE surface (tarfs.rs)

tarfs.rs works on `INode` values: an `ino`, an optional `parent_id`, a raw
tar header record `entry`, and the list of child nodes.  `readdir` touches
each child's `ino`, its `attrs().kind` and its `entry.name`, so children are
embedded as `(ino, entry)` pairs. -/

/-- The raw header record an `INode` carries (`TarIndexEntry` of the index
API tarfs.rs is written against): header fields only, `mtime` in whole
seconds (`u64`). -/
structure INodeEntryM where
  name : String
  path : List String
  link_name : Option (List String)
  filesize : Nat
  mode : Nat
  uid : Nat
  gid : Nat
  mtime : Nat
  ftype : EntryTypeM
deriving DecidableEq, Repr

/-- One node as tarfs.rs sees it. -/
structure INodeM where
  ino : Nat
  parent_id : Option Nat
  entry : INodeEntryM
  children : List (Nat × INodeEntryM)
deriving DecidableEq, Repr

/-- tarfs.rs `tar_entrytype_to_filetype`: `Link` falls into the
unsupported-type arm and maps to `RegularFile`. -/
def tar_entrytype_to_filetype : EntryTypeM → FileTypeM
  | .regular => .regularFile
  | .directory => .directory
  | .symlink => .symlink
  | .link => .regularFile
  | .other => .regularFile

/-- Rust `as i64` applied to a `u64` value. -/
def u64_as_i64 (n : Nat) : Int :=
  ((n : Int) + 9223372036854775808).emod 18446744073709551616
    - 9223372036854775808

/-- tarfs.rs `attrs(node)`: rebuild a fuse attribute record from the raw
header fields.  All times collapse to `mtime` seconds, and `nlink` is the
constant 1 — the per-entry attrs the indexer computed (directory `nlink = 2`,
hard-link increments) are not consulted. -/
def tarfs_attrs (ino : Nat) (e : INodeEntryM) : FileAttrM :=
  let kind := tar_entrytype_to_filetype e.ftype
  let mtime : TimespecM := ⟨u64_as_i64 e.mtime, 0⟩
  let size : Nat :=
    match e.link_name with
    | some ln => os_str_len ln
    | none =>
      match kind with
      | .directory => 4096
      | _ => e.filesize
  { ino := ino, size := size, blocks := 0
    atime := mtime, mtime := mtime, ctime := mtime, crtime := mtime
    kind := kind, perm := e.mode % 65536, nlink := 1
    uid := e.uid % 4294967296, gid := e.gid % 4294967296, rdev := 0, flags := 0 }

/-- tarfs.rs `ttl_max()`: `Timespec::new(i64::MAX, 0)`. -/
def ttl_max : TimespecM := ⟨9223372036854775807, 0⟩

/-- tarfs.rs `emtpy_attr()` (name as in the source): the synthetic all-zero
attribute record returned for a lookup miss. -/
def emtpy_attr : FileAttrM :=
  { ino := 0, size := 0, blocks := 0
    atime := ⟨0, 0⟩, mtime := ⟨0, 0⟩, ctime := ⟨0, 0⟩, crtime := ⟨0, 0⟩
    kind := .regularFile, perm := 0, nlink := 0, uid := 0, gid := 0
    rdev := 0, flags := 0 }

def ENOENT : Nat := 2

/-- A FUSE reply as tarfs.rs produces it: `reply.entry`, `reply.attr`, or
`reply.error`. -/
inductive FuseReply where
  | entry (ttl : TimespecM) (attrs : FileAttrM) (generation : Nat)
  | attr (ttl : TimespecM) (attrs : FileAttrM)
  | error (errno : Nat)
deriving DecidableEq, Repr

/-- tarfs.rs `lookup`, as a function of the `index.lookup_child` result: a
hit replies `(ttl_max, attrs(node), 0)`; a miss replies the synthetic
`emtpy_attr` with the same max TTL (the `reply.error(ENOENT)` line is
commented out in the source). -/
def tarfs_lookup (lookup_child_result : Option (Nat × INodeEntryM)) : FuseReply :=
  match lookup_child_result with
  | none => .entry ttl_max emtpy_attr 0
  | some p => .entry ttl_max (tarfs_attrs p.1 p.2) 0

/-- tarfs.rs `getattr`, as a function of the `get_node_by_ino` result. -/
def tarfs_getattr (node : Option (Nat × INodeEntryM)) : FuseReply :=
  match node with
  | none => .error ENOENT
  | some p => .attr ttl_max (tarfs_attrs p.1 p.2)

/-! ## readdir (tarfs.rs `readdir`) -/

/-- One `reply.add(ino, offset, kind, name)` call. -/
structure ReaddirEntryM where
  ino : Nat
  off : Int
  kind : FileTypeM
  name : String
deriving DecidableEq, Repr

/-- The `..` entry's ino: the parent's, or the node's own for the root. -/
def parent_or_self (node : INodeM) : Nat :=
  match node.parent_id with
  | none => node.ino
  | some p => p

/-- The child loop of `readdir`: starting offset `off`, one entry per child
with `attrs(child).kind` and `child.entry.name`, incrementing `off`. -/
def emit_children (off : Int) : List (Nat × INodeEntryM) → List ReaddirEntryM
  | [] => []
  | c :: cs =>
    ⟨c.1, off, (tarfs_attrs c.1 c.2).kind, c.2.name⟩ :: emit_children (off + 1) cs

/-- tarfs.rs `readdir`, producing the full emitted stream (the reply buffer
is assumed large enough; a full buffer only truncates the stream).  A
non-directory returns without emitting (`some []`); the child slice
`&children[children_offset..]` panics (`none`) when the resume offset points
past the end of the children.  `.` is emitted at offset 1 only for an
incoming offset of 0, `..` at offset 2 for incoming offsets ≤ 1, and the
children at offsets `2 + children_offset + 1, …` after skipping
`max(offset - 2, 0)` of them. -/
def tarfs_readdir (node : INodeM) (offset : Int) : Option (List ReaddirEntryM) :=
  if node.entry.ftype ≠ EntryTypeM.directory then some []
  else if (max (offset - 2) 0).toNat > node.children.length then none
  else
    some ((if offset = 0 then [⟨node.ino, 1, .directory, "."⟩] else [])
      ++ (if offset ≤ 1 then [⟨parent_or_self node, 2, .directory, ".."⟩] else [])
      ++ emit_children (2 + max (offset - 2) 0 + 1)
          (node.children.drop (max (offset - 2) 0).toNat))

/-- Placeholder child used by `List.getD` in the readdir statement. -/
def dflt_child : Nat × INodeEntryM :=
  (0, { name := "", path := [], link_name := none, filesize := 0, mode := 0
        uid := 0, gid := 0, mtime := 0, ftype := .regular })

theorem list_getD_drop {α : Type} (l : List α) (s i : Nat) (d : α) :
    (l.drop s).getD i d = l.getD (s + i) d := by
  induction l generalizing s with
  | nil => simp
  | cons x xs ih =>
    cases s with
    | zero => simp
    | succ s2 => simp [Nat.succ_add, ih s2]

theorem emit_children_eq (cs : List (Nat × INodeEntryM)) (off : Int) :
    emit_children off cs = (List.range cs.length).map (fun i =>
      ReaddirEntryM.mk (cs.getD i dflt_child).1 (off + (i : Int))
        (tar_entrytype_to_filetype (cs.getD i dflt_child).2.ftype)
        (cs.getD i dflt_child).2.name) := by
  induction cs generalizing off with
  | nil => rfl
  | cons c cs ih =>
    rw [emit_children, ih (off + 1), List.length_cons, List.range_succ_eq_map,
      List.map_cons, List.map_map]
    congr 1
    · simp [tarfs_attrs]
    · apply List.map_congr_left
      intro i _
      simp only [Function.comp, List.getD_cons_succ]
      congr 1
      push_cast
      ring

theorem tarfs_readdir_spec (node : INodeM) (k : Int)
    (hdir : node.entry.ftype = EntryTypeM.directory) (_h0 : 0 ≤ k)
    (h2 : k ≤ (node.children.length : Int) + 2) :
    tarfs_readdir node k = some (
      (if k = 0 then [⟨node.ino, 1, .directory, "."⟩] else [])
      ++ (if k ≤ 1 then [⟨parent_or_self node, 2, .directory, ".."⟩] else [])
      ++ (List.range (node.children.length - (k - 2).toNat)).map (fun i =>
          ReaddirEntryM.mk (node.children.getD ((k - 2).toNat + i) dflt_child).1
            (3 + (((k - 2).toNat + i : Nat) : Int))
            (tar_entrytype_to_filetype
              (node.children.getD ((k - 2).toNat + i) dflt_child).2.ftype)
            (node.children.getD ((k - 2).toNat + i) dflt_child).2.name)) := by
  have hco : (max (k - 2) 0).toNat = (k - 2).toNat := by omega
  have hguard : ¬ ((max (k - 2) 0).toNat > node.children.length) := by omega
  unfold tarfs_readdir
  rw [if_neg (by simp [hdir]), if_neg hguard, emit_children_eq, hco,
    List.length_drop]
  congr 2
  apply List.map_congr_left
  intro i hi
  rw [list_getD_drop]
  congr 1
  push_cast
  omega

/-- Claim C5: for a directory node, `readdir` with incoming offset `k`
(any resume offset the protocol can produce, `0 ≤ k ≤ n + 2` for `n`
children) emits `.` at offset 1 with the directory's own ino exactly when
`k = 0`, `..` at offset 2 with the parent's ino (the node's own ino at the
root) exactly when `k ≤ 1`, and then the children in stored order after
skipping the first `max(k - 2, 0)`, the `i`-th emitted child carrying
offset `3 + max(k - 2, 0) + i`, its own ino, its `attrs().kind` and its
name; a full walk (offset 0) yields exactly `n + 2` entries. -/
theorem c5_readdir_protocol (node : INodeM) (k : Int)
    (hdir : node.entry.ftype = EntryTypeM.directory) (h0 : 0 ≤ k)
    (h2 : k ≤ (node.children.length : Int) + 2) :
    (tarfs_readdir node k = some (
      (if k = 0 then [⟨node.ino, 1, .directory, "."⟩] else [])
      ++ (if k ≤ 1 then [⟨parent_or_self node, 2, .directory, ".."⟩] else [])
      ++ (List.range (node.children.length - (k - 2).toNat)).map (fun i =>
          ReaddirEntryM.mk (node.children.getD ((k - 2).toNat + i) dflt_child).1
            (3 + (((k - 2).toNat + i : Nat) : Int))
            (tar_entrytype_to_filetype
              (node.children.getD ((k - 2).toNat + i) dflt_child).2.ftype)
            (node.children.getD ((k - 2).toNat + i) dflt_child).2.name)))
    ∧ (tarfs_readdir node 0).map List.length =
        some (node.children.length + 2) := by
  constructor
  · exact tarfs_readdir_spec node k hdir h0 h2
  · rw [tarfs_readdir_spec node 0 hdir (by omega) (by omega)]
    have hz : ((0 : Int) - 2).toNat = 0 := by decide
    simp [hz]

/-- A child regular file `x`. -/
def w_child_x : INodeEntryM :=
  { name := "x", path := [".", "dir", "x"], link_name := none, filesize := 1
    mode := 420, uid := 0, gid := 0, mtime := 0, ftype := .regular }

/-- A child regular file `y`. -/
def w_child_y : INodeEntryM := { w_child_x with name := "y", path := [".", "dir", "y"] }

/-- A directory node with two children, ino 4, parent ino 1. -/
def w_dir_node : INodeM :=
  { ino := 4, parent_id := some 1
    entry := { name := "dir", path := [".", "dir"], link_name := none
               filesize := 0, mode := 493, uid := 0, gid := 0, mtime := 0
               ftype := .directory }
    children := [(5, w_child_x), (6, w_child_y)] }

theorem c5_readdir_witness :
    tarfs_readdir w_dir_node 3 = some [⟨6, 4, .regularFile, "y"⟩]
    ∧ (tarfs_readdir w_dir_node 0).map List.length = some 4 := by
  have h := c5_readdir_protocol w_dir_node 3 (by decide) (by decide) (by decide)
  exact ⟨h.1.trans (by decide), h.2.trans (by decide)⟩

/-- Claim C6: `lookup` never produces an error reply (in particular never
ENOENT): a hit replies with the child's attributes and the maximum
representable TTL, and every miss replies with the synthetic all-zero
attribute record (ino 0) and the same maximum TTL, which is what enables
negative-entry caching. -/
theorem c6_lookup_never_errors :
    (∀ res errno, tarfs_lookup res ≠ FuseReply.error errno)
    ∧ tarfs_lookup none = FuseReply.entry ttl_max emtpy_attr 0
    ∧ (∀ ino e, tarfs_lookup (some (ino, e)) =
        FuseReply.entry ttl_max (tarfs_attrs ino e) 0)
    ∧ emtpy_attr = default_fuse_file_attr
    ∧ emtpy_attr.ino = 0
    ∧ ttl_max = ⟨9223372036854775807, 0⟩ := by
  refine ⟨?_, rfl, fun ino e => rfl, rfl, rfl, rfl⟩
  intro res errno h
  cases res with
  | none => simp [tarfs_lookup] at h
  | some p => simp [tarfs_lookup] at h

/-- The raw header record of a directory `./dir1` as tarfs.rs sees it
(mode from the tar header, here 0o755). -/
def dir_inode_entry : INodeEntryM :=
  { name := "dir1", path := [".", "dir1"], link_name := none, filesize := 0
    mode := 493, uid := 1000, gid := 1000, mtime := 1700000000
    ftype := .directory }

/-- The same directory as a tar record on the indexer side. -/
def rec_dir : TarEntryM :=
  { rec_b with path := [".", "dir1"], ftype := .directory, filesize := 0 }

/-- Claim C10: the spec claims `getattr` on a directory reports size 4096,
kind Directory and nlink 2.  The `attrs` function of tarfs.rs that `getattr`
replies with does give size 4096 and kind Directory, but hardcodes
`nlink: 1` for every entry — even though the indexer's own
`TarEntry::attrs` computes nlink 2 for directories (last conjunct) and
maintains hard-link increments, all of which the filesystem surface
discards. -/
theorem c10_getattr_dir_nlink_is_one :
    tarfs_getattr (some (4, dir_inode_entry)) =
      FuseReply.attr ttl_max (tarfs_attrs 4 dir_inode_entry)
    ∧ (tarfs_attrs 4 dir_inode_entry).size = 4096
    ∧ (tarfs_attrs 4 dir_inode_entry).kind = FileTypeM.directory
    ∧ (tarfs_attrs 4 dir_inode_entry).nlink = 1
    ∧ (tar_entry_attrs rec_dir 4).nlink = 2 := by
  refine ⟨rfl, by decide, by decide, by decide, by decide⟩
